import Mathlib

/-!
Verification of the bulk-dispatch sequencer in `src/pages/BulkMessageForm.jsx`
(repository Ogpavan/whatsappweb_frontend).

The component is shallowly embedded as pure Lean functions:

* a recipient row (`Row`) is an association list from field name to the
  string form of the cell value (JavaScript `toString()` is applied at the
  modelling boundary, so a numeric cell `42` appears as `"42"`; an absent or
  `null`/`undefined` field is simply absent from the list);
* the remote messaging API reached through `fetch` is an oracle
  (`Nat → FetchResult`): the i-th dispatch of a run receives the oracle's
  value at i, which is either an HTTP response (`ok` flag plus body text)
  or a transport-level error carrying a message;
* React state setters (`setSending`, `setProgress`, …) become explicit
  state passing on `ComponentState`, and every externally visible action of
  a run (`setProgress` calls, dispatches, `sleep` suspensions, `alert`s) is
  recorded in an event trace, in program order.
-/

/-- A recipient row: mapping from field name to the string form of the
cell value, as produced by the Row Extractor (Papa.parse / XLSX). -/
abbrev Row := List (String × String)

/-- JavaScript property access `row[key]`: `none` models `undefined`. -/
def Row.get (row : Row) (key : String) : Option String :=
  (row.find? (fun p => p.1 == key)).map (fun p => p.2)

/-- A character matched by the regex class `\w` (the source uses the
pattern `{(\w+)}` without the unicode flag, so `\w = [A-Za-z0-9_]`). -/
def isWordChar (c : Char) : Bool := c.isAlphanum || c == '_'

/-- JavaScript `data[key]?.toString() || ''`: the field's string form, or
the empty string when the field is absent (`?.` yields `undefined`) or its
string form is empty (falsy, so `|| ''` applies). -/
def valueOf (row : Row) (key : String) : String :=
  (Row.get row key).getD ""

/-- Core of `replacePlaceholders`:
`template.replace(/{(\w+)}/g, (_, key) => data[key]?.toString() || '')`
transliterated to a left-to-right scan over the character list.  The regex
matches `{`, a nonempty run of word characters, then `}`; since `}` is not
a word character, the greedy `\w+` with backtracking is equivalent to
taking the maximal word-character run and requiring `}` right after it.
On a failed match the regex engine resumes at the next position; as no
match can begin inside a word-character run, resuming right after the `{`
is equivalent. -/
def replaceAux (row : Row) : List Char → List Char
  | [] => []
  | c :: rest =>
    if c = '{' ∧ rest.takeWhile isWordChar ≠ [] ∧
        (rest.dropWhile isWordChar).head? = some '}' then
      (valueOf row ⟨rest.takeWhile isWordChar⟩).data ++
        replaceAux row (rest.dropWhile isWordChar).tail
    else
      c :: replaceAux row rest
termination_by l => l.length
decreasing_by
  · have h1 : (rest.dropWhile isWordChar).length ≤ rest.length :=
      (List.dropWhile_sublist isWordChar).length_le
    have h2 : (rest.dropWhile isWordChar).tail.length =
        (rest.dropWhile isWordChar).length - 1 := List.length_tail _
    simp only [List.length_cons]
    omega
  · simp only [List.length_cons]
    omega

/-- `const replacePlaceholders = (template, data) =>
  template.replace(/{(\w+)}/g, (_, key) => data[key]?.toString() || '')`. -/
def replacePlaceholders (template : String) (data : Row) : String :=
  ⟨replaceAux data template.data⟩

/-- Result of the awaited `fetch` (plus `response.text()`): either an HTTP
response with its `ok` flag and body text, or a rejected promise carrying
the transport error's message. -/
inductive FetchResult
  | response (ok : Bool) (body : String)
  | transportError (msg : String)
deriving Repr, DecidableEq

/-- The value `sendMessage` resolves to: `{ success: true }` or
`{ success: false, error: error.message }`. -/
inductive SendResult
  | success
  | failure (error : String)
deriving Repr, DecidableEq

/-- Whether a `SendResult` is the failure variant (`!result.success`). -/
def SendResult.isFailure : SendResult → Bool
  | .success => false
  | .failure _ => true

/-- `sendMessage` (lines 54-90): performs one `fetch`, reads the body text,
and inside its own `try`/`catch` maps every outcome to a `SendResult`:
an ok response yields success; a non-ok response throws
`new Error(resText || 'Unknown error')`, immediately caught, yielding
failure with the body text (or `'Unknown error'` when the body is the
empty string, which is falsy); a transport error is caught, yielding
failure with the error's message.  The function is total: no exception
escapes it. -/
def sendMessage (res : FetchResult) : SendResult :=
  match res with
  | .response ok body =>
    if ok then .success
    else .failure (if body = "" then "Unknown error" else body)
  | .transportError msg => .failure msg

/-- Externally visible actions of a run, in program order. -/
inductive Event
  | setProgress (current total : Nat)
  | send (number message : String)
  | sleep (ms : Nat)
  | alert (text : String)
deriving Repr, DecidableEq

/-- JavaScript `String.prototype.trim()` on a character list: drop
whitespace from both ends (ASCII whitespace; the unicode spaces JS also
strips do not occur in the data this component handles). -/
def trimChars (l : List Char) : List Char :=
  ((l.dropWhile Char.isWhitespace).reverse.dropWhile Char.isWhitespace).reverse

/-- JavaScript `s.trim()`, transliterated character by character. -/
def jsTrim (s : String) : String :=
  ⟨trimChars s.data⟩

/-- The trimmed string form of a row's `number` field:
`row.number?.toString().trim()` (with `''` for an absent field). -/
def trimmedNumber (row : Row) : String :=
  jsTrim ((Row.get row "number").getD "")

/-- The filter predicate of `data.filter(row => row.number?.toString().trim())`:
a row is kept exactly when the trimmed string form of its `number` field is
truthy, i.e. nonempty. -/
def hasValidNumber (row : Row) : Bool :=
  trimmedNumber row != ""

/-- The `for` loop of `handleBulkSend` (lines 110-136), processing the
filtered rows from index `i` on.  Returns the event trace of the remaining
iterations together with the final values of the accumulators `successful`
and `failed`.  Each iteration: `setProgress({current: i+1, total})`, the
dispatch (whose network outcome is `oracle i`), the accumulator update,
and — when `i < total - 1` — the `sleep(delaySeconds * 1000)` suspension. -/
def sendLoop (bulkMessage : String) (delayMs : Nat) (oracle : Nat → FetchResult)
    (total : Nat) : List Row → Nat → List Event × Nat × List String
  | [], _ => ([], 0, [])
  | row :: rest, i =>
    let number := trimmedNumber row
    let personalizedMessage := replacePlaceholders bulkMessage row
    let result := sendMessage (oracle i)
    let next := sendLoop bulkMessage delayMs oracle total rest (i + 1)
    (Event.setProgress (i + 1) total :: Event.send number personalizedMessage ::
        ((if i < total - 1 then [Event.sleep delayMs] else []) ++ next.1),
     (match result with
      | .success => next.2.1 + 1
      | .failure _ => next.2.1),
     (match result with
      | .success => next.2.2
      | .failure _ => number :: next.2.2))

/-- Final summary of a run: `successful` and the `failed` list. -/
structure RunSummary where
  successCount : Nat
  failedNumbers : List String
deriving Repr, DecidableEq

/-- Body of the `parseFile` callback in `handleBulkSend` (lines 100-137),
the Bulk Sequencer proper: filter the parsed rows to those with a truthy
trimmed `number`, set progress to `{0, total}`, run the sequential send
loop from index 0, and reset progress to `{0, 0}` afterwards. -/
def bulkRun (data : List Row) (bulkMessage : String) (delaySeconds : Nat)
    (oracle : Nat → FetchResult) : List Event × RunSummary :=
  let validRows := data.filter hasValidNumber
  let totalMessages := validRows.length
  let r := sendLoop bulkMessage (delaySeconds * 1000) oracle totalMessages validRows 0
  (Event.setProgress 0 totalMessages :: r.1 ++ [Event.setProgress 0 0],
   ⟨r.2.1, r.2.2⟩)

/-- The uploaded file: its name (whose extension selects the parser) and
the row records the Row Extractor produces from it. -/
structure FileData where
  name : String
  rows : List Row
deriving Repr, DecidableEq

/-- The component's React state fields. -/
structure ComponentState where
  inputFile : Option FileData
  bulkMessage : String
  sending : Bool
  delaySeconds : Nat
  progress : Nat × Nat
deriving Repr, DecidableEq

/-- JavaScript `String.prototype.split('.')` on a character list: the
dot-separated segments, always at least one (split of the empty string is
`[""]`). -/
def splitDots : List Char → List (List Char)
  | [] => [[]]
  | c :: rest =>
    match splitDots rest with
    | [] => [[]]
    | seg :: segs => if c = '.' then [] :: seg :: segs else (c :: seg) :: segs

/-- `file.name.split('.').pop().toLowerCase()`: the last dot-separated
segment of the file name, lowercased character by character (`splitDots`
never returns an empty list, so `getD` never fires). -/
def fileExt (name : String) : String :=
  ⟨(((splitDots name.data).getLast?).getD []).map Char.toLower⟩

/-- The alert text of the final summary report (lines 145-149). -/
def summaryText (s : RunSummary) : String :=
  if s.failedNumbers.length > 0 then
    "✅ Successfully sent: " ++ toString s.successCount ++ ", ❌ Failed: " ++
      toString s.failedNumbers.length ++ "\nFailed numbers: " ++
      String.intercalate ", " s.failedNumbers
  else
    "✅ All messages sent successfully to " ++ toString s.successCount ++ " contacts!"

/-- `handleBulkSend` (lines 92-152) together with the `parseFile` dispatch
on the file extension (lines 17-44).  Guard: if `sessionId`, the selected
file, `accessToken`, or the trimmed message is falsy, alert and return with
the state untouched.  Otherwise `setSending(true)` is executed, then
`parseFile` inspects the extension: for `csv`, `xlsx`, `xls` the parser's
callback runs the bulk sequencer and afterwards resets `sending`,
`inputFile`, `bulkMessage`, and `progress`, then shows the summary alert;
for any other extension `parseFile` only alerts — the callback never runs,
so no reset of the already-set `sending` flag occurs.  Returns the new
component state and the event trace. -/
def handleBulkSend (sessionId accessToken : String) (st : ComponentState)
    (oracle : Nat → FetchResult) : ComponentState × List Event :=
  match st.inputFile with
  | none =>
    (st, [Event.alert "Session ID, file, access token, and message are required!"])
  | some file =>
    if sessionId = "" ∨ accessToken = "" ∨ jsTrim st.bulkMessage = "" then
      (st, [Event.alert "Session ID, file, access token, and message are required!"])
    else
      let ext := fileExt file.name
      if ext = "csv" ∨ ext = "xlsx" ∨ ext = "xls" then
        let r := bulkRun file.rows st.bulkMessage st.delaySeconds oracle
        ({ st with sending := false, inputFile := none, bulkMessage := "",
                   progress := (0, 0) },
         r.1 ++ [Event.alert (summaryText r.2)])
      else
        ({ st with sending := true },
         [Event.alert "Unsupported file type! Please upload a .csv, .xlsx, or .xls file."])

/-! ## Observation functions over event traces

These extract, from a run's event trace, the facets the specification
talks about: the dispatched numbers, the sleep suspensions, and the
progress observations delivered to the progress observer (per the spec's
interface, the observer is invoked with the Progress State immediately
before each send attempt, so the observations are exactly the
`setProgress` events immediately followed by a `send`). -/

/-- The recipient numbers dispatched, in trace order. -/
def sentNumbers : List Event → List String
  | [] => []
  | Event.send n _ :: rest => n :: sentNumbers rest
  | _ :: rest => sentNumbers rest

/-- The durations (in milliseconds) of the sleep suspensions, in trace
order. -/
def sleepEvents : List Event → List Nat
  | [] => []
  | Event.sleep ms :: rest => ms :: sleepEvents rest
  | _ :: rest => sleepEvents rest

/-- The `(current, total)` pairs delivered to the progress observer: the
progress updates immediately preceding a send attempt. -/
def observerEvents : List Event → List (Nat × Nat)
  | Event.setProgress c t :: Event.send n m :: rest =>
    (c, t) :: observerEvents (Event.send n m :: rest)
  | _ :: rest => observerEvents rest
  | [] => []

/-- Whether a character list contains a placeholder token: a `{`, a
nonempty run of word characters, then `}` (the sentences of the regex
`/{(\w+)}/`). -/
def hasPlaceholderAux : List Char → Bool
  | [] => false
  | c :: rest =>
    (decide (c = '{' ∧ rest.takeWhile isWordChar ≠ [] ∧
      (rest.dropWhile isWordChar).head? = some '}')) || hasPlaceholderAux rest

/-- Whether a string contains a placeholder token `{fieldName}`. -/
def hasPlaceholder (s : String) : Bool := hasPlaceholderAux s.data

/-! ## Template renderer lemmas -/

theorem isWordChar_rbrace : isWordChar '}' = false := rfl

theorem takeWhile_key (key rest : List Char)
    (hk : ∀ c ∈ key, isWordChar c = true) :
    (key ++ '}' :: rest).takeWhile isWordChar = key := by
  induction key with
  | nil => simp [List.takeWhile_cons, isWordChar_rbrace]
  | cons c cs ih =>
    have hc : isWordChar c = true := hk c (by simp)
    simp [List.takeWhile_cons, hc, ih fun c h => hk c (by simp [h])]

theorem dropWhile_key (key rest : List Char)
    (hk : ∀ c ∈ key, isWordChar c = true) :
    (key ++ '}' :: rest).dropWhile isWordChar = '}' :: rest := by
  induction key with
  | nil => simp [List.dropWhile_cons, isWordChar_rbrace]
  | cons c cs ih =>
    have hc : isWordChar c = true := hk c (by simp)
    simp [List.dropWhile_cons, hc, ih fun c h => hk c (by simp [h])]

/-- A placeholder token at the head of the input is replaced by the row's
value for its name, and scanning resumes right after the token. -/
theorem replaceAux_token (row : Row) (key rest : List Char) (hne : key ≠ [])
    (hk : ∀ c ∈ key, isWordChar c = true) :
    replaceAux row ('{' :: (key ++ '}' :: rest)) =
      (valueOf row ⟨key⟩).data ++ replaceAux row rest := by
  rw [replaceAux]
  rw [if_pos ⟨rfl, by rw [takeWhile_key key rest hk]; exact hne,
      by rw [dropWhile_key key rest hk]; rfl⟩]
  rw [takeWhile_key key rest hk, dropWhile_key key rest hk]
  rfl

/-- A character other than `{` is copied through unchanged. -/
theorem replaceAux_pass (row : Row) (c : Char) (l : List Char) (hc : c ≠ '{') :
    replaceAux row (c :: l) = c :: replaceAux row l := by
  rw [replaceAux, if_neg]
  intro h
  exact hc h.1

theorem replaceAux_nil (row : Row) : replaceAux row [] = [] := by
  rw [replaceAux]

/-- On input without any placeholder token the scan copies every
character through unchanged. -/
theorem replaceAux_id (row : Row) (l : List Char)
    (h : hasPlaceholderAux l = false) : replaceAux row l = l := by
  induction l with
  | nil => exact replaceAux_nil row
  | cons c rest ih =>
    rw [hasPlaceholderAux] at h
    simp only [Bool.or_eq_false_iff, decide_eq_false_iff_not] at h
    rw [replaceAux, if_neg h.1]
    rw [ih h.2]

/-- String-level form of `replaceAux_token`. -/
theorem replacePlaceholders_token (row : Row) (key t : String) (hne : key ≠ "")
    (hk : ∀ c ∈ key.data, isWordChar c = true) :
    replacePlaceholders ("\x7b" ++ key ++ "\x7d" ++ t) row
      = valueOf row key ++ replacePlaceholders t row := by
  have hd : ("\x7b" ++ key ++ "\x7d" ++ t).data = '{' :: (key.data ++ ('}' :: t.data)) := by
    simp
  have hne' : key.data ≠ [] := by
    intro h
    exact hne (by cases key; simp_all)
  simp only [replacePlaceholders]
  rw [hd, replaceAux_token row key.data t.data hne' hk]
  rfl

/-- String-level form of `replaceAux_pass`. -/
theorem replacePlaceholders_pass (row : Row) (c : Char) (t : String) (hc : c ≠ '{') :
    replacePlaceholders (String.singleton c ++ t) row
      = String.singleton c ++ replacePlaceholders t row := by
  simp only [replacePlaceholders]
  show String.mk (replaceAux row (c :: t.data)) = _
  rw [replaceAux_pass row c t.data hc]
  rfl

/-- String-level form of `replaceAux_id`. -/
theorem replacePlaceholders_id (s : String) (row : Row)
    (h : hasPlaceholder s = false) : replacePlaceholders s row = s := by
  simp only [replacePlaceholders]
  show String.mk (replaceAux row s.data) = s
  rw [replaceAux_id row s.data h]

/-! ## Trace extraction lemmas -/

theorem sentNumbers_append (a b : List Event) :
    sentNumbers (a ++ b) = sentNumbers a ++ sentNumbers b := by
  induction a with
  | nil => rfl
  | cons e rest ih => cases e <;> simp [sentNumbers, ih]

theorem sleepEvents_append (a b : List Event) :
    sleepEvents (a ++ b) = sleepEvents a ++ sleepEvents b := by
  induction a with
  | nil => rfl
  | cons e rest ih => cases e <;> simp [sleepEvents, ih]

theorem observerEvents_sp_send (c t : Nat) (n m : String) (l : List Event) :
    observerEvents (Event.setProgress c t :: Event.send n m :: l) =
      (c, t) :: observerEvents (Event.send n m :: l) := rfl

theorem observerEvents_send (n m : String) (l : List Event) :
    observerEvents (Event.send n m :: l) = observerEvents l := rfl

theorem observerEvents_sleep (ms : Nat) (l : List Event) :
    observerEvents (Event.sleep ms :: l) = observerEvents l := rfl

/-- A progress update not followed by a send attempt is not an observer
invocation. -/
theorem observerEvents_sp_of_head_ne_send (c t : Nat) (l : List Event)
    (h : ∀ n m, l.head? ≠ some (Event.send n m)) :
    observerEvents (Event.setProgress c t :: l) = observerEvents l := by
  match l with
  | [] => rfl
  | Event.setProgress c' t' :: l' => rfl
  | Event.send n m :: l' => exact absurd rfl (h n m)
  | Event.sleep ms :: l' => rfl
  | Event.alert s :: l' => rfl

/-! ## Send-loop lemmas

Throughout, the loop is considered from an arbitrary start index `i`; the
run itself uses `i = 0` and `total = ` the filtered row count, so the side
condition `i + rows.length = total` (the remaining rows are exactly the
rows from index `i` of `total`) holds at every call. -/

/-- Every processed row contributes exactly one outcome: an increment of
`successful` or one entry appended to `failed`. -/
theorem sendLoop_count (msg : String) (d : Nat) (oracle : Nat → FetchResult)
    (total : Nat) (rows : List Row) (i : Nat) :
    (sendLoop msg d oracle total rows i).2.1 +
      (sendLoop msg d oracle total rows i).2.2.length = rows.length := by
  induction rows generalizing i with
  | nil => simp [sendLoop]
  | cons row rest ih =>
    have h := ih (i + 1)
    simp only [sendLoop, List.length_cons]
    cases hr : sendMessage (oracle i) <;> simp [hr] <;> omega

/-- The dispatched numbers are the trimmed `number` fields of the
processed rows, in order. -/
theorem sendLoop_sent (msg : String) (d : Nat) (oracle : Nat → FetchResult)
    (total : Nat) (rows : List Row) (i : Nat) :
    sentNumbers (sendLoop msg d oracle total rows i).1 = rows.map trimmedNumber := by
  induction rows generalizing i with
  | nil => simp [sendLoop, sentNumbers]
  | cons row rest ih =>
    simp only [sendLoop, List.map_cons]
    by_cases h : i < total - 1 <;> simp [h, sentNumbers, ih (i + 1)]

/-- The failed numbers are the trimmed `number` fields of exactly the
processed rows whose dispatch failed, in dispatch order. -/
theorem sendLoop_failed (msg : String) (d : Nat) (oracle : Nat → FetchResult)
    (total : Nat) (rows : List Row) (i : Nat) :
    (sendLoop msg d oracle total rows i).2.2 =
      (((List.enumFrom i rows).filter
          (fun p => (sendMessage (oracle p.1)).isFailure)).map
        (fun p => trimmedNumber p.2)) := by
  induction rows generalizing i with
  | nil => simp [sendLoop]
  | cons row rest ih =>
    simp only [sendLoop, List.enumFrom_cons]
    cases hr : sendMessage (oracle i) <;>
      simp [List.filter_cons, hr, SendResult.isFailure, ih (i + 1)]

/-- One sleep suspension of the configured duration occurs per processed
row except the last. -/
theorem sendLoop_sleep (msg : String) (d : Nat) (oracle : Nat → FetchResult)
    (total : Nat) (rows : List Row) (i : Nat) (h : i + rows.length = total) :
    sleepEvents (sendLoop msg d oracle total rows i).1 =
      List.replicate (rows.length - 1) d := by
  induction rows generalizing i with
  | nil => simp [sendLoop, sleepEvents]
  | cons row rest ih =>
    simp only [List.length_cons] at h
    by_cases hr : rest = []
    · subst hr
      have hi : ¬ i < total - 1 := by simp at h; omega
      simp [sendLoop, hi, sleepEvents]
    · have hlen : rest.length ≠ 0 := fun hl => hr (List.length_eq_zero.mp hl)
      have hi : i < total - 1 := by omega
      have hrec := ih (i + 1) (by omega)
      simp only [sendLoop, List.length_cons]
      simp [hi, sleepEvents, sleepEvents_append, hrec]
      have : rest.length = rest.length - 1 + 1 := by omega
      rw [this, List.replicate_succ]
      simp

/-- The observer invocations over the rest of the run (including the
final progress reset, which is not an observer invocation since no send
follows it) are one per processed row, with `current` counting up from
`i + 1` and carrying `total`. -/
theorem sendLoop_obs (msg : String) (d : Nat) (oracle : Nat → FetchResult)
    (total : Nat) (rows : List Row) (i : Nat) :
    observerEvents ((sendLoop msg d oracle total rows i).1 ++
        [Event.setProgress 0 0]) =
      (List.range rows.length).map (fun j => (i + j + 1, total)) := by
  induction rows generalizing i with
  | nil => rfl
  | cons row rest ih =>
    simp only [sendLoop, List.cons_append, List.length_cons]
    rw [observerEvents_sp_send, observerEvents_send]
    have htail : observerEvents
        (((if i < total - 1 then [Event.sleep d] else []) ++
          (sendLoop msg d oracle total rest (i + 1)).1) ++ [Event.setProgress 0 0]) =
        (List.range rest.length).map (fun j => (i + 1 + j + 1, total)) := by
      by_cases hcase : i < total - 1
      · simp only [hcase, if_true, List.cons_append, List.nil_append,
          List.append_assoc, observerEvents_sleep]
        exact ih (i + 1)
      · simp only [hcase, if_false, List.nil_append]
        exact ih (i + 1)
    rw [htail, List.range_succ_eq_map, List.map_cons, List.map_map]
    congr 1
    refine List.map_congr_left fun a _ => ?_
    simp only [Function.comp_apply, Nat.succ_eq_add_one, Prod.mk.injEq, and_true]
    omega

/-- When at least one row is processed, the loop's trace ends with the
final row's send event: no sleep suspension follows it. -/
theorem sendLoop_last (msg : String) (d : Nat) (oracle : Nat → FetchResult)
    (total : Nat) (rows : List Row) (i : Nat) (hne : rows ≠ [])
    (h : i + rows.length = total) :
    ∃ pre n m, (sendLoop msg d oracle total rows i).1 =
      pre ++ [Event.send n m] := by
  revert hne h
  induction rows generalizing i with
  | nil => intro hne _; exact absurd rfl hne
  | cons row rest ih =>
    intro _ h
    by_cases hr : rest = []
    · subst hr
      have hi : ¬ i < total - 1 := by simp at h; omega
      refine ⟨[Event.setProgress (i + 1) total], trimmedNumber row,
        replacePlaceholders msg row, ?_⟩
      simp [sendLoop, hi]
    · obtain ⟨pre, n, m, hp⟩ := ih (i + 1) hr (by simp at h; omega)
      refine ⟨Event.setProgress (i + 1) total :: Event.send (trimmedNumber row)
          (replacePlaceholders msg row) ::
          ((if i < total - 1 then [Event.sleep d] else []) ++ pre), n, m, ?_⟩
      simp [sendLoop, hp]

/-! ## Run-level lemmas -/

theorem bulkRun_count (data : List Row) (msg : String) (d : Nat)
    (oracle : Nat → FetchResult) :
    (bulkRun data msg d oracle).2.successCount +
      (bulkRun data msg d oracle).2.failedNumbers.length =
      (data.filter hasValidNumber).length := by
  simp only [bulkRun]
  exact sendLoop_count msg (d * 1000) oracle _ _ 0

theorem bulkRun_sent (data : List Row) (msg : String) (d : Nat)
    (oracle : Nat → FetchResult) :
    sentNumbers (bulkRun data msg d oracle).1 =
      (data.filter hasValidNumber).map trimmedNumber := by
  simp only [bulkRun]
  simp [sentNumbers, sentNumbers_append, sendLoop_sent]

theorem bulkRun_failed (data : List Row) (msg : String) (d : Nat)
    (oracle : Nat → FetchResult) :
    (bulkRun data msg d oracle).2.failedNumbers =
      ((List.enumFrom 0 (data.filter hasValidNumber)).filter
          (fun p => (sendMessage (oracle p.1)).isFailure)).map
        (fun p => trimmedNumber p.2) := by
  simp only [bulkRun]
  exact sendLoop_failed msg (d * 1000) oracle _ _ 0

theorem bulkRun_sleep (data : List Row) (msg : String) (d : Nat)
    (oracle : Nat → FetchResult) :
    sleepEvents (bulkRun data msg d oracle).1 =
      List.replicate ((data.filter hasValidNumber).length - 1) (d * 1000) := by
  simp only [bulkRun]
  simp [sleepEvents, sleepEvents_append,
    sendLoop_sleep msg (d * 1000) oracle (data.filter hasValidNumber).length
      (data.filter hasValidNumber) 0 (by simp)]

theorem bulkRun_obs (data : List Row) (msg : String) (d : Nat)
    (oracle : Nat → FetchResult) :
    observerEvents (bulkRun data msg d oracle).1 =
      (List.range (data.filter hasValidNumber).length).map
        (fun j => (j + 1, (data.filter hasValidNumber).length)) := by
  simp only [bulkRun]
  rw [List.cons_append, observerEvents_sp_of_head_ne_send]
  · have h := sendLoop_obs msg (d * 1000) oracle
      (data.filter hasValidNumber).length (data.filter hasValidNumber) 0
    simpa using h
  · intro n m
    cases hv : data.filter hasValidNumber with
    | nil => simp [sendLoop]
    | cons v vs => simp [sendLoop]

theorem bulkRun_last (data : List Row) (msg : String) (d : Nat)
    (oracle : Nat → FetchResult)
    (hne : (data.filter hasValidNumber).length ≠ 0) :
    ∃ pre n m, (bulkRun data msg d oracle).1 =
      pre ++ [Event.send n m, Event.setProgress 0 0] := by
  simp only [bulkRun]
  obtain ⟨pre, n, m, hp⟩ := sendLoop_last msg (d * 1000) oracle
    (data.filter hasValidNumber).length (data.filter hasValidNumber) 0
    (fun hl => hne (by simp [hl])) (by simp)
  refine ⟨Event.setProgress 0 (data.filter hasValidNumber).length :: pre, n, m, ?_⟩
  simp [hp]

/-! ## Claims -/

/-- C1: for every run of the bulk sequencer over any input row sequence
and any behaviour of the remote API, the Run Summary satisfies
`successCount + length(failedNumbers) = total`, where `total` is the
number of filtered valid rows: each valid row contributes exactly one
outcome, either an increment of `successCount` or one appended entry in
`failedNumbers`, never both and never neither. -/
theorem claim1_run_summary_conservation (data : List Row) (msg : String)
    (d : Nat) (oracle : Nat → FetchResult) :
    (bulkRun data msg d oracle).2.successCount +
      (bulkRun data msg d oracle).2.failedNumbers.length =
      (data.filter hasValidNumber).length :=
  bulkRun_count data msg d oracle

/-- C2: the sequencer dispatches exactly to the rows whose `number` field
is nonempty after trimming, in their original relative order (the
dispatched numbers are the trimmed numbers of `data.filter hasValidNumber`,
which preserves order), and the `total` component of every progress
observation equals the count of such rows (there are `total` observations,
each carrying that count).  Rows without a valid number are never
dispatched and never counted. -/
theorem claim2_filter_defines_dispatch_and_total (data : List Row)
    (msg : String) (d : Nat) (oracle : Nat → FetchResult) :
    sentNumbers (bulkRun data msg d oracle).1 =
      (data.filter hasValidNumber).map trimmedNumber
    ∧ (observerEvents (bulkRun data msg d oracle).1).map Prod.snd =
      List.replicate (data.filter hasValidNumber).length
        (data.filter hasValidNumber).length :=
  ⟨bulkRun_sent data msg d oracle, by
    simp [bulkRun_obs, List.map_map, Function.comp_def, List.map_const']⟩

/-- C3: the progress observer is invoked exactly `total` times, with
`current` taking exactly the values `1, 2, …, total` in that order (no
gaps, no repeats), each observation emitted immediately before the
corresponding send attempt (`observerEvents` extracts precisely the
progress updates followed by a send), and recipients are contacted in
exactly the order of the filtered sequence. -/
theorem claim3_progress_observation_sequence (data : List Row)
    (msg : String) (d : Nat) (oracle : Nat → FetchResult) :
    observerEvents (bulkRun data msg d oracle).1 =
      (List.range (data.filter hasValidNumber).length).map
        (fun j => (j + 1, (data.filter hasValidNumber).length))
    ∧ sentNumbers (bulkRun data msg d oracle).1 =
      (data.filter hasValidNumber).map trimmedNumber :=
  ⟨bulkRun_obs data msg d oracle, bulkRun_sent data msg d oracle⟩

/-- C4: a run over `total` filtered rows performs exactly `total - 1`
sleep suspensions of `delay` seconds (`delay * 1000` milliseconds) — so
none for `total = 0` or `total = 1` — and when at least one row is
processed the trace ends with the final send followed only by the
progress reset: no sleep follows the final row's dispatch. -/
theorem claim4_inter_message_delays (data : List Row) (msg : String)
    (d : Nat) (oracle : Nat → FetchResult) :
    sleepEvents (bulkRun data msg d oracle).1 =
      List.replicate ((data.filter hasValidNumber).length - 1) (d * 1000)
    ∧ ((data.filter hasValidNumber).length ≠ 0 →
      ∃ pre n m, (bulkRun data msg d oracle).1 =
        pre ++ [Event.send n m, Event.setProgress 0 0]) :=
  ⟨bulkRun_sleep data msg d oracle, bulkRun_last data msg d oracle⟩

/-- Witness for C4 at a concrete run of two valid rows: the filtered
count is nonzero and the trace ends with the last send followed only by
the progress reset. -/
theorem claim4_inter_message_delays_witness :
    (List.filter hasValidNumber [[("number", "111")], [("number", "222")]]).length ≠ 0
    ∧ ∃ pre n m,
      (bulkRun [[("number", "111")], [("number", "222")]] "Hi" 2
          (fun _ => FetchResult.response true "")).1 =
        pre ++ [Event.send n m, Event.setProgress 0 0] :=
  ⟨by decide,
    (claim4_inter_message_delays [[("number", "111")], [("number", "222")]] "Hi" 2
      (fun _ => FetchResult.response true "")).2 (by decide)⟩

/-- C5: the Template Renderer replaces every occurrence of a placeholder
token `{fieldName}` (nonempty word-character name inside braces) with the
string form of the record's value for that field — the scan equations
below determine the output on every input: a token at the head is
replaced by `valueOf` and scanning resumes after it, any other character
is copied through — and `valueOf` renders an absent or empty field as the
empty string.  The function is a total pure Lean function: deterministic,
side-effect-free, no error raised. -/
theorem claim5_template_renderer_contract :
    (∀ (row : Row) (key t : String), key ≠ "" →
      (∀ c ∈ key.data, isWordChar c = true) →
      replacePlaceholders ("\x7b" ++ key ++ "\x7d" ++ t) row =
        valueOf row key ++ replacePlaceholders t row)
    ∧ (∀ (row : Row) (c : Char) (t : String), c ≠ '{' →
      replacePlaceholders (String.singleton c ++ t) row =
        String.singleton c ++ replacePlaceholders t row)
    ∧ (∀ (row : Row) (key : String), Row.get row key = none →
      valueOf row key = "")
    ∧ (∀ (row : Row) (key : String), Row.get row key = some "" →
      valueOf row key = "") :=
  ⟨replacePlaceholders_token,
   replacePlaceholders_pass,
   fun row key h => by simp [valueOf, h],
   fun row key h => by simp [valueOf, h]⟩

/-- Witness for C5 at concrete inputs: a token is substituted, a plain
character passes through, and absent and empty fields render empty. -/
theorem claim5_template_renderer_contract_witness :
    replacePlaceholders ("\x7b" ++ "name" ++ "\x7d" ++ "!") [("name", "Ann")] =
      valueOf [("name", "Ann")] "name" ++ replacePlaceholders "!" [("name", "Ann")]
    ∧ replacePlaceholders (String.singleton 'H' ++ "i") [] =
      String.singleton 'H' ++ replacePlaceholders "i" []
    ∧ valueOf [("name", "Ann")] "missing" = ""
    ∧ valueOf [("name", "")] "name" = "" :=
  ⟨claim5_template_renderer_contract.1 [("name", "Ann")] "name" "!"
      (by decide) (by decide),
   claim5_template_renderer_contract.2.1 [] 'H' "i" (by decide),
   claim5_template_renderer_contract.2.2.1 [("name", "Ann")] "missing" (by decide),
   claim5_template_renderer_contract.2.2.2 [("name", "")] "name" (by decide)⟩

/-- C6: on a string containing no placeholder token (no `{`, nonempty
word-character run, `}` anywhere — literal braces without a valid name
included), rendering is the identity for every record; and every
occurrence of the same placeholder name is substituted with the identical
value `valueOf row key`, a function of the record and the name alone,
independent of the occurrence's position or surroundings. -/
theorem claim6_renderer_identity_and_uniformity :
    (∀ (s : String) (row : Row), hasPlaceholder s = false →
      replacePlaceholders s row = s)
    ∧ (∀ (row : Row) (key t : String), key ≠ "" →
      (∀ c ∈ key.data, isWordChar c = true) →
      replacePlaceholders ("\x7b" ++ key ++ "\x7d" ++ t) row =
        valueOf row key ++ replacePlaceholders t row) :=
  ⟨replacePlaceholders_id, replacePlaceholders_token⟩

/-- Witness for C6: a string full of literal braces but with no valid
placeholder token is rendered unchanged, and a token occurrence is
substituted with `valueOf` of its name. -/
theorem claim6_renderer_identity_and_uniformity_witness :
    hasPlaceholder "a\x7bb\x7b \x7b\x7d \x7b1 \x7d x" = false
    ∧ replacePlaceholders "a\x7bb\x7b \x7b\x7d \x7b1 \x7d x" [("b", "B")] = "a\x7bb\x7b \x7b\x7d \x7b1 \x7d x"
    ∧ replacePlaceholders ("\x7b" ++ "city" ++ "\x7d" ++ "") [("city", "Pune")] =
      valueOf [("city", "Pune")] "city" ++ replacePlaceholders "" [("city", "Pune")] :=
  ⟨by decide,
   claim6_renderer_identity_and_uniformity.1 "a\x7bb\x7b \x7b\x7d \x7b1 \x7d x" [("b", "B")] (by decide),
   claim6_renderer_identity_and_uniformity.2 [("city", "Pune")] "city" ""
     (by decide) (by decide)⟩

/-- C7: the Dispatch Client returns success exactly when the remote call
completes with an ok status; a non-ok response yields failure carrying the
response body (or the fallback `'Unknown error'` when the body is empty),
and a transport error yields failure carrying the error's message — the
most specific diagnostic available in each case.  `sendMessage` is a total
function into `SendResult`, so every failure mode is captured in the
failure variant and nothing escapes its boundary. -/
theorem claim7_dispatch_client_outcomes (body msg : String) :
    sendMessage (FetchResult.response true body) = SendResult.success
    ∧ sendMessage (FetchResult.response false body) =
      SendResult.failure (if body = "" then "Unknown error" else body)
    ∧ sendMessage (FetchResult.transportError msg) = SendResult.failure msg :=
  ⟨rfl, rfl, rfl⟩

/-- C8 (divergence witness): with every pre-run input present and valid
but an unrecognized file extension, the run indeed does not start (no
send event; only the unsupported-file alert) — but a side effect on the
component's state has already occurred: `sending` has been set to `true`
(and nothing ever resets it), contradicting the claim that the failure is
surfaced before any side effect on the component's state. -/
theorem claim8_unsupported_extension_stuck_sending :
    handleBulkSend "session" "token"
      { inputFile := some { name := "contacts.txt", rows := [[("number", "111")]] },
        bulkMessage := "Hello", sending := false, delaySeconds := 3,
        progress := (0, 0) }
      (fun _ => FetchResult.response true "") =
    ({ inputFile := some { name := "contacts.txt", rows := [[("number", "111")]] },
       bulkMessage := "Hello", sending := true, delaySeconds := 3,
       progress := (0, 0) },
     [Event.alert "Unsupported file type! Please upload a .csv, .xlsx, or .xls file."]) := by
  decide

/-- C9: `failedNumbers` contains exactly the trimmed `number` values of
the filtered rows whose dispatch failed, in the order those rows hold in
the filtered sequence (the dispatch order): it is the image under
`trimmedNumber` of the failing positions of the indexed filtered
sequence. -/
theorem claim9_failed_numbers_exact (data : List Row) (msg : String)
    (d : Nat) (oracle : Nat → FetchResult) :
    (bulkRun data msg d oracle).2.failedNumbers =
      ((List.enumFrom 0 (data.filter hasValidNumber)).filter
          (fun p => (sendMessage (oracle p.1)).isFailure)).map
        (fun p => trimmedNumber p.2) :=
  bulkRun_failed data msg d oracle

/-- C10: at the end of every completed run (inputs valid, extension
recognized), the component's state has the input file cleared to `none`,
the message template cleared to the empty string, the sending flag
cleared, and progress reset to `(0, 0)`; the delay setting — the only
other piece of component state — is unchanged. -/
theorem claim10_run_completion_state_reset (sessionId accessToken : String)
    (st : ComponentState) (oracle : Nat → FetchResult) (file : FileData)
    (hfile : st.inputFile = some file)
    (hs : sessionId ≠ "") (ha : accessToken ≠ "")
    (hm : jsTrim st.bulkMessage ≠ "")
    (hext : fileExt file.name = "csv" ∨ fileExt file.name = "xlsx" ∨
      fileExt file.name = "xls") :
    (handleBulkSend sessionId accessToken st oracle).1 =
      { inputFile := none, bulkMessage := "", sending := false,
        delaySeconds := st.delaySeconds, progress := (0, 0) } := by
  obtain ⟨inputFile, bulkMsg, sending, delay, prog⟩ := st
  simp only at hfile hm
  subst hfile
  simp only [handleBulkSend]
  rw [if_neg (by simp [hs, ha, hm]), if_pos hext]

/-- Witness for C10 at a concrete completed run over a csv file. -/
theorem claim10_run_completion_state_reset_witness :
    (handleBulkSend "session" "token"
      { inputFile := some { name := "contacts.csv", rows := [[("number", "111")]] },
        bulkMessage := "Hello", sending := false, delaySeconds := 3,
        progress := (0, 0) }
      (fun _ => FetchResult.response true "")).1 =
      { inputFile := none, bulkMessage := "", sending := false,
        delaySeconds := 3, progress := (0, 0) } :=
  claim10_run_completion_state_reset "session" "token"
    { inputFile := some { name := "contacts.csv", rows := [[("number", "111")]] },
      bulkMessage := "Hello", sending := false, delaySeconds := 3,
      progress := (0, 0) }
    (fun _ => FetchResult.response true "")
    { name := "contacts.csv", rows := [[("number", "111")]] }
    rfl (by decide) (by decide) (by decide) (Or.inl (by decide))
